import Mathlib

/-!
Verification of the NetStatWiz connection-analysis pipeline
(src/NetStatWiz/NetStatWiz.py) through a shallow embedding in Lean 4.

Modelling conventions:
* Strings are handled through their character lists (`String.data`), and the
  fixed regular expression of `parse_netstat_output` is embedded as a
  deterministic left-to-right scanner.  Determinism is justified because at
  every token boundary of the pattern
  `^\s*(TCP|UDP)\s+(\d+\.\d+\.\d+\.\d+):(\d+)\s+(\d+\.\d+\.\d+\.\d+):(\d+)\s+(\w+)`
  the character class of the token is disjoint from the character that must
  follow it, so greedy matching never needs to backtrack.  Character classes
  are taken in their ASCII meaning.
* Python `dict`s are insertion-ordered association lists; `defaultdict`
  aggregates are viewed as total functions from keys to the accumulated
  values.
* The fallible, effectful parts (the HTTP fetch of `get_ip_location`, the
  folium rendering and file writes of `generate_map`) are embedded by
  passing the outcome of each external event as an explicit argument and
  returning the observable results (returned value, cache afterwards,
  number of network requests, whether the rate-limit sleep ran, file left
  at the output path).
* JSON numbers (`lat`/`lon`) are modelled as exact rationals: the program
  only stores them and compares them with 0, it never computes with them.
-/

namespace NetStatWiz

/-- Characters matched by the regex class `\s` (ASCII whitespace, as in
Python's `re`). -/
def isSpaceChar (c : Char) : Bool :=
  c == ' ' || c == '\t' || c == '\n' || c == '\r' || c == '\x0b' || c == '\x0c'

/-- Characters matched by the regex class `\w` (ASCII letters, digits and
underscore). -/
def isWordChar (c : Char) : Bool :=
  c.isAlphanum || c == '_'

/-- Numeric value of a decimal digit string: the value Python `int` returns
on the all-digit strings produced by the pattern groups and by splitting a
dotted quad. -/
def decimalValue (l : List Char) : Nat :=
  l.foldl (fun a c => 10 * a + (c.toNat - 48)) 0

/-- Embedding of Python `int(s)` as used by `is_private_ip`: it succeeds
exactly on nonempty all-digit strings, and `none` models `int` raising
`ValueError` (caught by the surrounding `except`).  Python's `int` also
accepts signs and surrounding whitespace; such forms never occur in the
dotted-quad parts handled here. -/
def pyIntOfChars (l : List Char) : Option Nat :=
  if !l.isEmpty && l.all Char.isDigit then some (decimalValue l) else none

/-- Embedding of Python `s.split('.')`: split at every dot and keep empty
pieces, so the empty string yields `[""]` and `"a..b"` yields
`["a", "", "b"]`. -/
def splitDot : List Char → List (List Char)
  | [] => [[]]
  | c :: rest =>
    if c == '.' then [] :: splitDot rest
    else
      match splitDot rest with
      | [] => [[c]]
      | h :: t => (c :: h) :: t

/-- Embedding of `NetStatWiz.is_private_ip`: split the address at dots,
require exactly four parts, convert the first two with `int` (a conversion
failure is the `except` branch returning `False`) and test the four private
blocks in the order the source does. -/
def is_private_ip (ip : String) : Bool :=
  match splitDot ip.data with
  | [p0, p1, _, _] =>
    match pyIntOfChars p0, pyIntOfChars p1 with
    | some first, some second =>
      if first = 10 then true
      else if first = 172 ∧ 16 ≤ second ∧ second ≤ 31 then true
      else if first = 192 ∧ second = 168 then true
      else if first = 127 then true
      else false
    | _, _ => false
  | _ => false

/-- Token `\d+`: greedily take the leading digit run, failing when it is
empty. -/
def takeDigits1 (l : List Char) : Option (List Char × List Char) :=
  if l.takeWhile Char.isDigit = [] then none
  else some (l.takeWhile Char.isDigit, l.dropWhile Char.isDigit)

/-- Token `\s+`: at least one whitespace character. -/
def takeSpaces1 (l : List Char) : Option (List Char) :=
  if l.takeWhile isSpaceChar = [] then none
  else some (l.dropWhile isSpaceChar)

/-- Token `(\w+)`: the greedy word-character run forming the state group. -/
def takeWord1 (l : List Char) : Option (List Char × List Char) :=
  if l.takeWhile isWordChar = [] then none
  else some (l.takeWhile isWordChar, l.dropWhile isWordChar)

/-- A required literal character (the `.` and `:` of the pattern). -/
def expectChar (c : Char) : List Char → Option (List Char)
  | [] => none
  | x :: xs => if x = c then some xs else none

/-- The alternation `(TCP|UDP)`. -/
def matchProto : List Char → Option (List Char × List Char)
  | 'T' :: 'C' :: 'P' :: rest => some (['T', 'C', 'P'], rest)
  | 'U' :: 'D' :: 'P' :: rest => some (['U', 'D', 'P'], rest)
  | _ => none

/-- The group `(\d+\.\d+\.\d+\.\d+)`: four digit runs joined by literal
dots, returned as the full matched text of the group. -/
def matchQuad (l : List Char) : Option (List Char × List Char) :=
  match takeDigits1 l with
  | none => none
  | some (d1, l) =>
    match expectChar '.' l with
    | none => none
    | some l =>
      match takeDigits1 l with
      | none => none
      | some (d2, l) =>
        match expectChar '.' l with
        | none => none
        | some l =>
          match takeDigits1 l with
          | none => none
          | some (d3, l) =>
            match expectChar '.' l with
            | none => none
            | some l =>
              match takeDigits1 l with
              | none => none
              | some (d4, l) =>
                some (d1 ++ '.' :: d2 ++ '.' :: d3 ++ '.' :: d4, l)

/-- The six capture groups of the connection pattern. -/
structure MatchGroups where
  protocol : List Char
  localIp : List Char
  localPort : List Char
  remoteIp : List Char
  remotePort : List Char
  state : List Char
deriving Repr, DecidableEq

/-- Embedding of `pattern.match(line)` for the fixed connection pattern.
`re.match` anchors at the start only, so text after the state token is
ignored. -/
def matchConn (l : List Char) : Option MatchGroups :=
  match matchProto (l.dropWhile isSpaceChar) with
  | none => none
  | some (proto, l1) =>
    match takeSpaces1 l1 with
    | none => none
    | some l2 =>
      match matchQuad l2 with
      | none => none
      | some (lip, l3) =>
        match expectChar ':' l3 with
        | none => none
        | some l4 =>
          match takeDigits1 l4 with
          | none => none
          | some (lport, l5) =>
            match takeSpaces1 l5 with
            | none => none
            | some l6 =>
              match matchQuad l6 with
              | none => none
              | some (rip, l7) =>
                match expectChar ':' l7 with
                | none => none
                | some l8 =>
                  match takeDigits1 l8 with
                  | none => none
                  | some (rport, l9) =>
                    match takeSpaces1 l9 with
                    | none => none
                    | some l10 =>
                      match takeWord1 l10 with
                      | none => none
                      | some (st, _) =>
                        some ⟨proto, lip, lport, rip, rport, st⟩

/-- A parsed connection: the dict appended by `parse_netstat_output`. -/
structure ConnectionRecord where
  protocol : String
  local_ip : String
  local_port : Nat
  remote_ip : String
  remote_port : Nat
  state : String
deriving Repr, DecidableEq

/-- The literal remote addresses skipped before the private-range check. -/
def skipLiterals : List String := ["0.0.0.0", "127.0.0.1", "::", "::1"]

/-- Embedding of `NetStatWiz.parse_netstat_output`: match each line against
the connection pattern, skip records whose remote address is one of the
loopback/unspecified literals or lies in a private range, and collect the
surviving records in line order. -/
def parse_netstat_output (lines : List String) : List ConnectionRecord :=
  lines.filterMap fun line =>
    match matchConn line.data with
    | none => none
    | some g =>
      let remote := String.mk g.remoteIp
      if skipLiterals.contains remote then none
      else if is_private_ip remote then none
      else some
        { protocol := String.mk g.protocol
          local_ip := String.mk g.localIp
          local_port := decimalValue g.localPort
          remote_ip := remote
          remote_port := decimalValue g.remotePort
          state := String.mk g.state }

/-- The static port-to-service table `PORT_SERVICES`, in source order. -/
def PORT_SERVICES : List (Nat × String) :=
  [(20, "FTP Data"), (21, "FTP"), (22, "SSH"), (23, "Telnet"), (25, "SMTP"),
   (53, "DNS"), (80, "HTTP"), (110, "POP3"), (143, "IMAP"), (443, "HTTPS"),
   (445, "SMB"), (3306, "MySQL"), (3389, "RDP"), (5432, "PostgreSQL"),
   (8080, "HTTP-Proxy"), (8443, "HTTPS-Alt"), (27017, "MongoDB"),
   (6379, "Redis"), (9200, "Elasticsearch"), (27015, "Steam")]

/-- Embedding of `NetStatWiz.get_service_name`, i.e.
`PORT_SERVICES.get(port, "Unknown")`. -/
def get_service_name (port : Nat) : String :=
  (PORT_SERVICES.lookup port).getD "Unknown"

/-- A JSON scalar as it occurs in the provider's response fields. -/
inductive JVal where
  | str (s : String)
  | num (q : Rat)
deriving Repr, DecidableEq

/-- Typed view of the JSON object returned by the geolocation provider:
every field the code reads through `data.get(...)`, with `none` for an
absent field. -/
structure ApiResponse where
  status : Option JVal := none
  message : Option String := none
  country : Option String := none
  regionName : Option String := none
  city : Option String := none
  lat : Option Rat := none
  lon : Option Rat := none
  isp : Option String := none
  org : Option String := none
deriving Repr, DecidableEq

/-- Outcome of the single `urllib.request.urlopen` call made for one cache
miss. -/
inductive FetchResult where
  /-- an HTTP success response whose body parsed as JSON -/
  | response (data : ApiResponse)
  /-- `urllib.error.HTTPError` -/
  | httpError
  /-- any other exception: timeout, transport error, malformed JSON -/
  | otherError
deriving Repr, DecidableEq

/-- The location dict built on a successful lookup and stored in
`self.ip_locations`. -/
structure LocationInfo where
  ip : String
  country : String
  region : String
  city : String
  latitude : Rat
  longitude : Rat
  isp : String
  org : String
deriving Repr, DecidableEq

/-- Dict lookup in `self.ip_locations`, an insertion-ordered association
list. -/
def cacheFind (cache : List (String × LocationInfo)) (ip : String) :
    Option LocationInfo :=
  (cache.find? (fun e => e.1 == ip)).map (·.2)

/-- Observable outcome of one `get_ip_location` call: the returned value,
the cache afterwards, how many network requests were issued and whether the
rate-limiting `time.sleep(1.5)` ran. -/
structure ResolveResult where
  result : Option LocationInfo
  cache : List (String × LocationInfo)
  networkCalls : Nat
  slept : Bool
deriving Repr, DecidableEq

/-- Embedding of `NetStatWiz.get_ip_location`.  A cache hit returns the
cached value immediately, with no sleep and no request.  Otherwise the code
sleeps, issues exactly one request (whose outcome the `fetch` argument
supplies), and only a response whose JSON `status` equals `"success"`
builds a LocationInfo — with "Unknown"/0 defaults for absent fields — and
stores it in the cache before returning it.  The location dict literal of
the success branch is `buildLocation`, with "Unknown"/0 defaults for absent
fields (note `region` is filled from the JSON field `regionName`). -/
def buildLocation (ip : String) (data : ApiResponse) : LocationInfo :=
  { ip := ip
    country := data.country.getD "Unknown"
    region := data.regionName.getD "Unknown"
    city := data.city.getD "Unknown"
    latitude := data.lat.getD 0
    longitude := data.lon.getD 0
    isp := data.isp.getD "Unknown"
    org := data.org.getD "Unknown" }

def get_ip_location (cache : List (String × LocationInfo)) (fetch : FetchResult)
    (ip : String) : ResolveResult :=
  match cacheFind cache ip with
  | some loc => ⟨some loc, cache, 0, false⟩
  | none =>
    match fetch with
    | .response data =>
      if data.status = some (.str "success") then
        let loc := buildLocation ip data
        ⟨some loc, cache ++ [(ip, loc)], 1, true⟩
      else ⟨none, cache, 1, true⟩
    | .httpError => ⟨none, cache, 1, true⟩
    | .otherError => ⟨none, cache, 1, true⟩

/-- One entry of the list `self.port_services[port]`. -/
structure PortServiceEntry where
  ip : String
  service : String
  protocol : String
  state : String
deriving Repr, DecidableEq

/-- The list `self.port_services[port]` after the aggregation loop of
`analyze_connections`: one entry appended per connection with that remote
port, in discovery order. -/
def port_services_at (conns : List ConnectionRecord) (port : Nat) :
    List PortServiceEntry :=
  conns.filterMap fun c =>
    if c.remote_port = port then
      some ⟨c.remote_ip, get_service_name c.remote_port, c.protocol, c.state⟩
    else none

/-- First occurrences of a list's elements, in order: the key sequence of a
dict populated by appending, used for `self.port_services.keys()` and for
sets of distinct values. -/
def distinctInOrder {α : Type} [DecidableEq α] (l : List α) : List α :=
  l.foldl (fun acc p => if p ∈ acc then acc else acc ++ [p]) []

/-- The three numbers of the summary block of `generate_tables`
(lines 456-459 of the source): `len(self.connections)`,
`len(self.ip_locations)` and `len(self.port_services)`. -/
def tables_summary (conns : List ConnectionRecord)
    (cache : List (String × LocationInfo)) : Nat × Nat × Nat :=
  (conns.length, cache.length,
    (distinctInOrder (conns.map (·.remote_port))).length)

/-- The country `print_summary` attributes to one connection:
`self.ip_locations.get(remote_ip, {}).get('country', 'Unknown')`.  A cached
LocationInfo always carries a country; a missing cache entry gives the `{}`
default and hence "Unknown". -/
def observed_country (cache : List (String × LocationInfo))
    (conn : ConnectionRecord) : String :=
  match cacheFind cache conn.remote_ip with
  | some loc => loc.country
  | none => "Unknown"

/-- The `country_counts` defaultdict of `print_summary` viewed as a total
function: how many connections are tallied under country `c`. -/
def country_counts (conns : List ConnectionRecord)
    (cache : List (String × LocationInfo)) (c : String) : Nat :=
  (conns.filter (fun conn => observed_country cache conn == c)).length

/-- Outcome of folium's rendering and `m.save(path)` (everything inside one
`try` block of `generate_map`): it succeeds and creates the file, raises an
exception, or completes without the file appearing on disk. -/
inductive SaveOutcome where
  | ok
  | raisesErr
  | noFile
deriving Repr, DecidableEq

/-- The external effects `generate_map` depends on: whether folium is
importable, how rendering/saving behaves, and whether the plain
`open(...).write` of a fallback page itself raises. -/
structure MapEnv where
  foliumAvailable : Bool
  save : SaveOutcome
  fallbackWriteOk : Bool
deriving Repr, DecidableEq

/-- What `generate_map` leaves at the output path. -/
inductive MapOutput where
  /-- no file was written -/
  | absent
  /-- the folium map HTML, with this many markers -/
  | foliumHtml (markers : Nat)
  /-- one of the two hand-written fallback HTML pages -/
  | fallbackHtml
deriving Repr, DecidableEq

/-- Markers added in the main branch of `generate_map`: one per cached
location whose latitude and longitude are both truthy, i.e. non-zero. -/
def map_markers (cache : List (String × LocationInfo)) : Nat :=
  (cache.filter (fun e => e.2.latitude != 0 && e.2.longitude != 0)).length

/-- Event-level embedding of `NetStatWiz.generate_map`, mapping state and
environment to what ends up at the output path.  The branches mirror the
source: folium missing → print and return, no file; empty `ip_locations` →
try to save an empty base map, with no fallback written on failure;
otherwise render and save, and write a fallback page when the save raised
or left no file behind — provided that write itself does not raise. -/
def generate_map (env : MapEnv) (cache : List (String × LocationInfo)) :
    MapOutput :=
  if !env.foliumAvailable then .absent
  else if cache.isEmpty then
    match env.save with
    | .ok => .foliumHtml 0
    | .raisesErr => .absent
    | .noFile => .absent
  else
    match env.save with
    | .ok => .foliumHtml (map_markers cache)
    | .raisesErr => if env.fallbackWriteOk then .fallbackHtml else .absent
    | .noFile => if env.fallbackWriteOk then .fallbackHtml else .absent

/-- Spec side: the dotted-quad text built from four octet strings. -/
def ipChars (p1 p2 p3 p4 : List Char) : List Char :=
  p1 ++ '.' :: p2 ++ '.' :: p3 ++ '.' :: p4

/-- Spec side: a line of the canonical connection shape, assembled from a
leading whitespace run, a protocol token, separator runs and the six
fields. -/
def connLine (ws proto sp1 l1 l2 l3 l4 lp sp2 r1 r2 r3 r4 rp sp3 st : List Char) :
    List Char :=
  ws ++ proto ++ sp1 ++ ipChars l1 l2 l3 l4 ++ ':' :: lp ++ sp2 ++
    ipChars r1 r2 r3 r4 ++ ':' :: rp ++ sp3 ++ st

/-- Spec side: a nonempty all-digit octet or port string. -/
def DigitPart (p : List Char) : Prop :=
  p ≠ [] ∧ ∀ c ∈ p, Char.isDigit c = true

/-- Spec side: a nonempty all-whitespace separator run. -/
def SpacePart (p : List Char) : Prop :=
  p ≠ [] ∧ ∀ c ∈ p, isSpaceChar c = true

/-- Spec side: a nonempty word-character run (a state token). -/
def WordPart (p : List Char) : Prop :=
  p ≠ [] ∧ ∀ c ∈ p, isWordChar c = true

/-- Spec side: membership of an IPv4 address, given by its first two octet
values, in one of the four private blocks 10.0.0.0/8, 172.16.0.0/12,
192.168.0.0/16, 127.0.0.0/8. -/
def inPrivateRange (o1 o2 : Nat) : Prop :=
  o1 = 10 ∨ (o1 = 172 ∧ 16 ≤ o2 ∧ o2 ≤ 31) ∨ (o1 = 192 ∧ o2 = 168) ∨ o1 = 127

/-! ## Helper lemmas about the character-level scanners -/

/-- A run satisfying `P` throughout is taken whole by `takeWhile`. -/
theorem takeWhile_all (P : Char → Bool) (l : List Char)
    (h : ∀ c ∈ l, P c = true) : l.takeWhile P = l := by
  induction l with
  | nil => rfl
  | cons x xs ih =>
    simp only [List.takeWhile_cons, h x (List.mem_cons_self x xs), if_true]
    rw [ih (fun c hc => h c (List.mem_cons_of_mem x hc))]

/-- A run satisfying `P` throughout is dropped whole by `dropWhile`. -/
theorem dropWhile_all (P : Char → Bool) (l : List Char)
    (h : ∀ c ∈ l, P c = true) : l.dropWhile P = [] := by
  induction l with
  | nil => rfl
  | cons x xs ih =>
    simp only [List.dropWhile_cons, h x (List.mem_cons_self x xs), if_true]
    exact ih (fun c hc => h c (List.mem_cons_of_mem x hc))

/-- Greedy `takeWhile` stops exactly at the first character violating `P`. -/
theorem takeWhile_append_not (P : Char → Bool) (l : List Char) (c : Char)
    (r : List Char) (hl : ∀ x ∈ l, P x = true) (hc : P c = false) :
    (l ++ c :: r).takeWhile P = l := by
  induction l with
  | nil => simp [List.takeWhile_cons, hc]
  | cons x xs ih =>
    simp only [List.cons_append, List.takeWhile_cons,
      hl x (List.mem_cons_self x xs), if_true]
    rw [ih (fun d hd => hl d (List.mem_cons_of_mem x hd))]

/-- Greedy `dropWhile` stops exactly at the first character violating `P`. -/
theorem dropWhile_append_not (P : Char → Bool) (l : List Char) (c : Char)
    (r : List Char) (hl : ∀ x ∈ l, P x = true) (hc : P c = false) :
    (l ++ c :: r).dropWhile P = c :: r := by
  induction l with
  | nil => simp [List.dropWhile_cons, hc]
  | cons x xs ih =>
    simp only [List.cons_append, List.dropWhile_cons,
      hl x (List.mem_cons_self x xs), if_true]
    exact ih (fun d hd => hl d (List.mem_cons_of_mem x hd))

/-- Enumeration of the ASCII whitespace class. -/
theorem space_cases (c : Char) (h : isSpaceChar c = true) :
    c = ' ' ∨ c = '\t' ∨ c = '\n' ∨ c = '\r' ∨ c = '\x0b' ∨ c = '\x0c' := by
  simp only [isSpaceChar, Bool.or_eq_true, beq_iff_eq] at h
  tauto

/-- Digits are not whitespace. -/
theorem not_space_of_digit (c : Char) (h : c.isDigit = true) :
    isSpaceChar c = false := by
  by_contra hs
  rw [Bool.not_eq_false] at hs
  rcases space_cases c hs with h1 | h1 | h1 | h1 | h1 | h1 <;> subst h1 <;>
    exact absurd h (by decide)

/-- Whitespace characters are not digits. -/
theorem not_digit_of_space (c : Char) (h : isSpaceChar c = true) :
    c.isDigit = false := by
  rcases space_cases c h with h1 | h1 | h1 | h1 | h1 | h1 <;> subst h1 <;> decide

/-- Whitespace characters are not word characters. -/
theorem not_word_of_space (c : Char) (h : isSpaceChar c = true) :
    isWordChar c = false := by
  rcases space_cases c h with h1 | h1 | h1 | h1 | h1 | h1 <;> subst h1 <;> decide

/-- Word characters are not whitespace. -/
theorem not_space_of_word (c : Char) (h : isWordChar c = true) :
    isSpaceChar c = false := by
  by_contra hs
  rw [Bool.not_eq_false] at hs
  rw [not_word_of_space c hs] at h
  exact absurd h (by decide)

/-- Digits are not the dot separator. -/
theorem digit_ne_dot (c : Char) (h : c.isDigit = true) : ¬ c = '.' := by
  intro he
  subst he
  exact absurd h (by decide)

/-! ## Helper lemmas about `splitDot` and the private-range check -/

/-- Splitting never yields an empty list of pieces. -/
theorem splitDot_ne_nil (l : List Char) : splitDot l ≠ [] := by
  induction l with
  | nil => simp [splitDot]
  | cons c rest ih =>
    simp only [splitDot]
    by_cases hc : (c == '.') = true
    · simp [hc]
    · rw [if_neg hc]
      cases h : splitDot rest with
      | nil => simp
      | cons a t => simp

/-- A dot-free piece is returned whole by `splitDot`. -/
theorem splitDot_no_dot (p : List Char) (h : ∀ c ∈ p, ¬ c = '.') :
    splitDot p = [p] := by
  induction p with
  | nil => rfl
  | cons x xs ih =>
    have hx : (x == '.') = false := by
      simpa using h x (List.mem_cons_self x xs)
    simp only [splitDot, hx, Bool.false_eq_true, if_false]
    rw [ih (fun c hc => h c (List.mem_cons_of_mem x hc))]

/-- Splitting separates a dot-free piece before the first dot. -/
theorem splitDot_append (p rest : List Char) (h : ∀ c ∈ p, ¬ c = '.') :
    splitDot (p ++ '.' :: rest) = p :: splitDot rest := by
  induction p with
  | nil => simp [splitDot]
  | cons x xs ih =>
    have hx : (x == '.') = false := by
      simpa using h x (List.mem_cons_self x xs)
    simp only [List.cons_append, List.append_eq, splitDot, hx,
      Bool.false_eq_true, if_false]
    rw [ih (fun c hc => h c (List.mem_cons_of_mem x hc))]

/-- Splitting a dotted quad of dot-free octet strings yields the four
octets. -/
theorem splitDot_ipChars (p1 p2 p3 p4 : List Char)
    (h1 : ∀ c ∈ p1, ¬ c = '.') (h2 : ∀ c ∈ p2, ¬ c = '.')
    (h3 : ∀ c ∈ p3, ¬ c = '.') (h4 : ∀ c ∈ p4, ¬ c = '.') :
    splitDot (ipChars p1 p2 p3 p4) = [p1, p2, p3, p4] := by
  unfold ipChars
  simp only [List.cons_append, List.append_assoc]
  rw [splitDot_append p1 _ h1, splitDot_append p2 _ h2,
    splitDot_append p3 _ h3, splitDot_no_dot p4 h4]

/-- Python `int` succeeds on a nonempty digit string and returns its decimal
value. -/
theorem pyIntOfChars_digit (p : List Char) (h : DigitPart p) :
    pyIntOfChars p = some (decimalValue p) := by
  unfold pyIntOfChars
  rw [if_pos]
  rw [Bool.and_eq_true, List.all_eq_true]
  constructor
  · cases p with
    | nil => exact absurd rfl h.1
    | cons x xs => rfl
  · exact h.2

instance (o1 o2 : Nat) : Decidable (inPrivateRange o1 o2) := by
  unfold inPrivateRange
  infer_instance

/-- The if-chain of `is_private_ip` decides membership in the four private
blocks. -/
theorem priv_if_eq (a b : Nat) :
    (if a = 10 then true
     else if a = 172 ∧ 16 ≤ b ∧ b ≤ 31 then true
     else if a = 192 ∧ b = 168 then true
     else if a = 127 then true
     else false) = decide (inPrivateRange a b) := by
  by_cases hA : a = 10
  · simp [hA, inPrivateRange]
  · by_cases hB : a = 172 ∧ 16 ≤ b ∧ b ≤ 31
    · simp [hA, hB, inPrivateRange]
    · by_cases hC : a = 192 ∧ b = 168
      · simp [hA, hB, hC, inPrivateRange]
      · by_cases hD : a = 127
        · simp [hA, hB, hC, hD, inPrivateRange]
        · simp [hA, hB, hC, hD, inPrivateRange]

/-- Bridge between the code's string-level check and the spec's four private
blocks: on a dotted quad of digit octet strings, `is_private_ip` decides
`inPrivateRange` of the first two octet values. -/
theorem is_private_ip_quad (p1 p2 p3 p4 : List Char)
    (h1 : DigitPart p1) (h2 : DigitPart p2) (h3 : DigitPart p3)
    (h4 : DigitPart p4) :
    is_private_ip (String.mk (ipChars p1 p2 p3 p4)) =
      decide (inPrivateRange (decimalValue p1) (decimalValue p2)) := by
  unfold is_private_ip
  have hd : (String.mk (ipChars p1 p2 p3 p4)).data = ipChars p1 p2 p3 p4 := rfl
  rw [hd, splitDot_ipChars p1 p2 p3 p4
        (fun c hc => digit_ne_dot c (h1.2 c hc))
        (fun c hc => digit_ne_dot c (h2.2 c hc))
        (fun c hc => digit_ne_dot c (h3.2 c hc))
        (fun c hc => digit_ne_dot c (h4.2 c hc))]
  simp only [pyIntOfChars_digit p1 h1, pyIntOfChars_digit p2 h2]
  exact priv_if_eq (decimalValue p1) (decimalValue p2)

instance (p : List Char) : Decidable (DigitPart p) := by
  unfold DigitPart
  infer_instance

instance (p : List Char) : Decidable (SpacePart p) := by
  unfold SpacePart
  infer_instance

instance (p : List Char) : Decidable (WordPart p) := by
  unfold WordPart
  infer_instance

/-! ## Association-list lookup lemmas for the service table -/

/-- In an association list with distinct keys, `lookup` finds each stored
pair. -/
theorem lookup_of_mem {l : List (Nat × String)} (hnd : (l.map Prod.fst).Nodup)
    {p : Nat} {s : String} (hmem : (p, s) ∈ l) : l.lookup p = some s := by
  induction l with
  | nil => cases hmem
  | cons e t ih =>
    rcases e with ⟨k, b⟩
    have hnd' : (∀ x, (k, x) ∉ t) ∧ (t.map Prod.fst).Nodup := by simpa using hnd
    rcases List.mem_cons.mp hmem with he | ht
    · cases he
      simp [List.lookup_cons]
    · have hk : (p == k) = false := by
        simp only [beq_eq_false_iff_ne]
        intro hpk
        subst hpk
        exact hnd'.1 s ht
      simp only [List.lookup_cons, hk]
      exact ih hnd'.2 ht

/-- Lookup misses every key outside an association list. -/
theorem lookup_of_not_mem {l : List (Nat × String)} {p : Nat}
    (h : p ∉ l.map Prod.fst) : l.lookup p = none := by
  induction l with
  | nil => rfl
  | cons e t ih =>
    rcases e with ⟨k, b⟩
    simp only [List.map_cons, List.mem_cons, not_or] at h
    have hk : (p == k) = false := by simpa using h.1
    simp only [List.lookup_cons, hk]
    exact ih h.2

/-! ## Claim C2: the private-range check is exactly the four blocks -/

/-- C2: for every well-formed dotted-quad IPv4 address (four nonempty digit
octet strings with values at most 255), `is_private_ip` returns `true` iff
the address lies in 10.0.0.0/8, 172.16.0.0/12, 192.168.0.0/16 or
127.0.0.0/8 — so it returns `false` on every other well-formed public
address — and every string that does not split into four dot-separated
parts is classified as not private. -/
theorem private_check_exact :
    (∀ p1 p2 p3 p4 : List Char,
      DigitPart p1 → DigitPart p2 → DigitPart p3 → DigitPart p4 →
      decimalValue p1 ≤ 255 → decimalValue p2 ≤ 255 →
      decimalValue p3 ≤ 255 → decimalValue p4 ≤ 255 →
      (is_private_ip (String.mk (ipChars p1 p2 p3 p4)) = true ↔
        inPrivateRange (decimalValue p1) (decimalValue p2))) ∧
    (∀ s : String, (splitDot s.data).length ≠ 4 → is_private_ip s = false) := by
  constructor
  · intro p1 p2 p3 p4 h1 h2 h3 h4 _ _ _ _
    rw [is_private_ip_quad p1 p2 p3 p4 h1 h2 h3 h4]
    exact decide_eq_true_iff
  · intro s hs
    unfold is_private_ip
    cases h : splitDot s.data with
    | nil => rfl
    | cons a t1 =>
      cases t1 with
      | nil => rfl
      | cons b t2 =>
        cases t2 with
        | nil => rfl
        | cons c t3 =>
          cases t3 with
          | nil => rfl
          | cons d t4 =>
            cases t4 with
            | nil => exact absurd (by rw [h]; rfl) hs
            | cons e t5 => rfl

/-- Witness for C2 at concrete inputs: 10.0.0.1 is recognised as private
(10.0.0.0/8) and a string with only three parts is not private. -/
theorem private_check_exact_witness :
    is_private_ip (String.mk (ipChars ['1', '0'] ['0'] ['0'] ['1'])) = true ∧
    is_private_ip "1.2.3" = false :=
  ⟨(private_check_exact.1 ['1', '0'] ['0'] ['0'] ['1']
      (by decide) (by decide) (by decide) (by decide)
      (by decide) (by decide) (by decide) (by decide)).mpr (by decide),
   private_check_exact.2 "1.2.3" (by decide)⟩

/-! ## Claim C6: service-name lookup is total -/

/-- C6: for every port in the static table, `get_service_name` returns that
port's fixed mapped name, and for every port outside the table it returns
"Unknown"; in particular 443 maps to "HTTPS". -/
theorem service_lookup_total :
    (∀ p s, (p, s) ∈ PORT_SERVICES → get_service_name p = s) ∧
    (∀ p, p ∉ PORT_SERVICES.map Prod.fst → get_service_name p = "Unknown") ∧
    get_service_name 443 = "HTTPS" := by
  refine ⟨?_, ?_, by decide⟩
  · intro p s hmem
    unfold get_service_name
    rw [lookup_of_mem (by decide) hmem]
    rfl
  · intro p hp
    unfold get_service_name
    rw [lookup_of_not_mem hp]
    rfl

/-- Witness for C6: port 22 is in the table and maps to SSH; port 4444 is
not in the table and maps to "Unknown". -/
theorem service_lookup_total_witness :
    get_service_name 22 = "SSH" ∧ get_service_name 4444 = "Unknown" :=
  ⟨service_lookup_total.1 22 "SSH" (by decide),
   service_lookup_total.2.1 4444 (by decide)⟩

/-! ## Claim C7: country aggregation -/

/-- C7: the country tally of `print_summary` assigns to each country the
number of connections whose remote IP is cached with that country, and
every connection whose remote IP has no cache entry is counted under
"Unknown" (on top of any connections cached with the literal country
"Unknown"). -/
theorem country_aggregation (conns : List ConnectionRecord)
    (cache : List (String × LocationInfo)) (c : String) :
    country_counts conns cache c =
      (conns.filter fun conn =>
        (cacheFind cache conn.remote_ip).map LocationInfo.country == some c).length
      + (if c = "Unknown" then
          (conns.filter fun conn =>
            (cacheFind cache conn.remote_ip).isNone).length
        else 0) := by
  induction conns with
  | nil => simp [country_counts]
  | cons conn t ih =>
    simp only [country_counts] at ih ⊢
    simp only [List.filter_cons]
    rcases hf : cacheFind cache conn.remote_ip with _ | loc
    · have hO : observed_country cache conn = "Unknown" := by
        unfold observed_country
        rw [hf]
      have hQ : ((none : Option LocationInfo).map LocationInfo.country ==
          some c) = false := rfl
      have hR : (none : Option LocationInfo).isNone = true := rfl
      by_cases hc : c = "Unknown"
      · subst hc
        rw [if_pos rfl] at ih ⊢
        simp only [hO, hQ, hR, beq_self_eq_true, if_true, Bool.false_eq_true,
          if_false, List.length_cons]
        omega
      · have hPb : ("Unknown" == c) = false := by
          simp only [beq_eq_false_iff_ne]
          exact fun h => hc h.symm
        rw [if_neg hc] at ih ⊢
        simp only [hO, hQ, hPb, Bool.false_eq_true, if_false]
        omega
    · have hO : observed_country cache conn = loc.country := by
        unfold observed_country
        rw [hf]
      have hQ : ((some loc).map LocationInfo.country == some c) =
          (loc.country == c) := rfl
      have hR : (some loc).isNone = false := rfl
      simp only [hO, hQ, hR, Bool.false_eq_true, if_false]
      by_cases hc2 : loc.country = c
      · simp only [hc2, beq_self_eq_true, if_true, List.length_cons]
        omega
      · have hPb : (loc.country == c) = false := by
          simp only [beq_eq_false_iff_ne]
          exact hc2
        simp only [hPb, Bool.false_eq_true, if_false]
        omega

/-! ## Claims C1 and C3: the geolocation resolver -/

/-- Appending a fresh entry to the cache makes it findable. -/
theorem cacheFind_append_self (cache : List (String × LocationInfo))
    (ip : String) (loc : LocationInfo) (h : cacheFind cache ip = none) :
    cacheFind (cache ++ [(ip, loc)]) ip = some loc := by
  unfold cacheFind at h ⊢
  have h2 : cache.find? (fun e => e.1 == ip) = none := by
    cases hx : cache.find? (fun e => e.1 == ip) with
    | none => rfl
    | some v =>
      rw [hx] at h
      exact absurd h (by simp)
  rw [List.find?_append, h2]
  simp [List.find?]

/-- C1: cache idempotence of the resolver.  If `ip` is not yet cached and
the first call returns a LocationInfo, then a second call with the same IP
— whatever the network would now return — yields the identical
LocationInfo, leaves the cache unchanged, performs no network request and
no rate-limit sleep; across the two calls exactly one network request is
made. -/
theorem resolver_cache_idempotent (cache : List (String × LocationInfo))
    (fetch fetch2 : FetchResult) (ip : String) (loc : LocationInfo)
    (hmiss : cacheFind cache ip = none)
    (hfirst : (get_ip_location cache fetch ip).result = some loc) :
    (get_ip_location (get_ip_location cache fetch ip).cache fetch2 ip).result
        = some loc ∧
    (get_ip_location (get_ip_location cache fetch ip).cache fetch2 ip).cache
        = (get_ip_location cache fetch ip).cache ∧
    (get_ip_location (get_ip_location cache fetch ip).cache fetch2 ip).networkCalls
        = 0 ∧
    (get_ip_location (get_ip_location cache fetch ip).cache fetch2 ip).slept
        = false ∧
    (get_ip_location cache fetch ip).networkCalls +
      (get_ip_location (get_ip_location cache fetch ip).cache fetch2 ip).networkCalls
        = 1 := by
  rcases fetch with data | _ | _
  · by_cases hs : data.status = some (.str "success")
    · have hr1 : get_ip_location cache (.response data) ip =
          ⟨some (buildLocation ip data), cache ++ [(ip, buildLocation ip data)],
            1, true⟩ := by
        unfold get_ip_location
        rw [hmiss]
        simp [hs]
      have hl : buildLocation ip data = loc := by
        rw [hr1] at hfirst
        simpa using hfirst
      subst hl
      have hr2 : get_ip_location (cache ++ [(ip, buildLocation ip data)]) fetch2 ip =
          ⟨some (buildLocation ip data), cache ++ [(ip, buildLocation ip data)],
            0, false⟩ := by
        unfold get_ip_location
        rw [cacheFind_append_self cache ip (buildLocation ip data) hmiss]
      simp [hr1, hr2]
    · have hnone : (get_ip_location cache (.response data) ip).result = none := by
        unfold get_ip_location
        rw [hmiss]
        simp [hs]
      rw [hnone] at hfirst
      exact absurd hfirst (by simp)
  · have hnone : (get_ip_location cache .httpError ip).result = none := by
      unfold get_ip_location
      rw [hmiss]
    rw [hnone] at hfirst
    exact absurd hfirst (by simp)
  · have hnone : (get_ip_location cache .otherError ip).result = none := by
      unfold get_ip_location
      rw [hmiss]
    rw [hnone] at hfirst
    exact absurd hfirst (by simp)

/-- A concrete success response used to witness C1. -/
def sampleResponse : ApiResponse :=
  { status := some (.str "success")
    country := some "ExampleLand"
    regionName := some "ExampleRegion"
    city := some "ExampleCity"
    lat := some 1
    lon := some 2
    isp := some "ExampleISP"
    org := some "ExampleOrg" }

/-- Witness for C1: starting from the empty cache, a successful resolution
of 93.184.216.34 followed by a second call (even against a now-failing
network) returns the same LocationInfo, and exactly one request is made in
total. -/
theorem resolver_cache_idempotent_witness :
    (get_ip_location
        (get_ip_location [] (.response sampleResponse) "93.184.216.34").cache
        FetchResult.otherError "93.184.216.34").result =
      some (buildLocation "93.184.216.34" sampleResponse) ∧
    (get_ip_location [] (.response sampleResponse) "93.184.216.34").networkCalls +
      (get_ip_location
        (get_ip_location [] (.response sampleResponse) "93.184.216.34").cache
        FetchResult.otherError "93.184.216.34").networkCalls = 1 := by
  have h := resolver_cache_idempotent [] (.response sampleResponse)
    FetchResult.otherError "93.184.216.34"
    (buildLocation "93.184.216.34" sampleResponse) rfl (by decide)
  exact ⟨h.1, h.2.2.2.2⟩

/-- C3: failure atomicity of the resolver.  On a cache miss whose lookup
fails — HTTP error, timeout/transport/JSON error, or a JSON status other
than "success" — the resolver returns no location, leaves the cache
unchanged (the IP stays absent), and a later call for the same IP issues a
fresh network request. -/
theorem resolver_failure_atomic (cache : List (String × LocationInfo))
    (fetch : FetchResult) (ip : String)
    (hmiss : cacheFind cache ip = none)
    (hfail : fetch = .httpError ∨ fetch = .otherError ∨
      ∃ data, fetch = .response data ∧ data.status ≠ some (.str "success")) :
    (get_ip_location cache fetch ip).result = none ∧
    (get_ip_location cache fetch ip).cache = cache ∧
    cacheFind (get_ip_location cache fetch ip).cache ip = none ∧
    ∀ fetch2, (get_ip_location (get_ip_location cache fetch ip).cache fetch2 ip).networkCalls
      = 1 := by
  have hr : get_ip_location cache fetch ip = ⟨none, cache, 1, true⟩ := by
    rcases hfail with h | h | ⟨data, h, hs⟩
    · subst h
      unfold get_ip_location
      rw [hmiss]
    · subst h
      unfold get_ip_location
      rw [hmiss]
    · subst h
      unfold get_ip_location
      rw [hmiss]
      simp [hs]
  refine ⟨by rw [hr], by rw [hr], ?_, ?_⟩
  · rw [hr]
    exact hmiss
  · intro fetch2
    rw [hr]
    show (get_ip_location cache fetch2 ip).networkCalls = 1
    unfold get_ip_location
    rw [hmiss]
    rcases fetch2 with data | _ | _
    · by_cases hs2 : data.status = some (.str "success") <;> simp [hs2]
    · rfl
    · rfl

/-- A concrete failure response (the spec's own example) used to witness
C3. -/
def failResponse : ApiResponse :=
  { status := some (.str "fail")
    message := some "invalid query" }

/-- Witness for C3: a `status:"fail"` response for an IP not in the (empty)
cache yields no result and an unchanged cache. -/
theorem resolver_failure_atomic_witness :
    (get_ip_location [] (.response failResponse) "1.2.3.4").result = none ∧
    (get_ip_location [] (.response failResponse) "1.2.3.4").cache = [] := by
  have h := resolver_failure_atomic [] (.response failResponse)
    "1.2.3.4" rfl (Or.inr (Or.inr ⟨_, rfl, by decide⟩))
  exact ⟨h.1, h.2.1⟩

/-! ## Claim C4: the worked example scenario -/

/-- C4: on the three example lines, the connection pattern matches exactly
two lines (the Parser yields 2 records), the filter keeps only the second
record — remote IP 93.184.216.34 — and the aggregated port-services entry
for port 443 is a single entry with service "HTTPS". -/
theorem example_scenario :
    ((["TCP    0.0.0.0:80    0.0.0.0:0    LISTENING",
       "TCP    10.0.0.5:51000    93.184.216.34:443    ESTABLISHED",
       "garbage line"].filterMap fun l => matchConn l.data).length = 2) ∧
    parse_netstat_output
        ["TCP    0.0.0.0:80    0.0.0.0:0    LISTENING",
         "TCP    10.0.0.5:51000    93.184.216.34:443    ESTABLISHED",
         "garbage line"] =
      [⟨"TCP", "10.0.0.5", 51000, "93.184.216.34", 443, "ESTABLISHED"⟩] ∧
    port_services_at
        (parse_netstat_output
          ["TCP    0.0.0.0:80    0.0.0.0:0    LISTENING",
           "TCP    10.0.0.5:51000    93.184.216.34:443    ESTABLISHED",
           "garbage line"]) 443 =
      [⟨"93.184.216.34", "HTTPS", "TCP", "ESTABLISHED"⟩] := by
  refine ⟨by decide, by decide, by decide⟩

/-! ## Claim C5: the filtered-connection invariant -/

/-- C5: every record emitted by the parse-and-filter stage — hence every
record reaching the aggregation stage — has a remote address that is none
of the literals 0.0.0.0, 127.0.0.1, ::, ::1, is not classified private,
and in particular, read as a dotted quad of digit octets, lies in none of
the four private blocks. -/
theorem filtered_remote_invariant (lines : List String) (r : ConnectionRecord)
    (hr : r ∈ parse_netstat_output lines) :
    r.remote_ip ∉ skipLiterals ∧
    is_private_ip r.remote_ip = false ∧
    (∀ p1 p2 p3 p4 : List Char, DigitPart p1 → DigitPart p2 → DigitPart p3 →
      DigitPart p4 → r.remote_ip = String.mk (ipChars p1 p2 p3 p4) →
      ¬ inPrivateRange (decimalValue p1) (decimalValue p2)) := by
  obtain ⟨line, _, hline⟩ := List.mem_filterMap.mp hr
  rcases hm : matchConn line.data with _ | g
  · rw [hm] at hline
    exact absurd hline (by simp)
  · rw [hm] at hline
    simp only [] at hline
    by_cases h1 : skipLiterals.contains (String.mk g.remoteIp) = true
    · rw [if_pos h1] at hline
      exact absurd hline (by simp)
    · rw [if_neg h1] at hline
      by_cases h2 : is_private_ip (String.mk g.remoteIp) = true
      · rw [if_pos h2] at hline
        exact absurd hline (by simp)
      · rw [if_neg h2] at hline
        have hrec := Option.some.inj hline
        have hrip : r.remote_ip = String.mk g.remoteIp := by rw [← hrec]
        have hfalse : is_private_ip (String.mk g.remoteIp) = false := by
          cases hb : is_private_ip (String.mk g.remoteIp) with
          | false => rfl
          | true => exact absurd hb h2
        refine ⟨?_, ?_, ?_⟩
        · rw [hrip]
          exact fun hmem => h1 (List.elem_iff.mpr hmem)
        · rw [hrip]
          exact hfalse
        · intro p1 p2 p3 p4 d1 d2 d3 d4 heq
          rw [hrip] at heq
          rw [heq, is_private_ip_quad p1 p2 p3 p4 d1 d2 d3 d4] at hfalse
          exact of_decide_eq_false hfalse

/-- Witness for C5 on a concrete surviving record. -/
theorem filtered_remote_invariant_witness :
    ("93.184.216.34" : String) ∉ skipLiterals ∧
    is_private_ip "93.184.216.34" = false := by
  have h := filtered_remote_invariant
    ["TCP    10.0.0.5:51000    93.184.216.34:443    ESTABLISHED"]
    ⟨"TCP", "10.0.0.5", 51000, "93.184.216.34", 443, "ESTABLISHED"⟩
    (by decide)
  exact ⟨h.1, h.2.1⟩

/-! ## Claim C8: the report summary block -/

/-- Invariant of the key-collecting fold behind `distinctInOrder`: starting
from a duplicate-free accumulator it stays duplicate-free and accumulates
exactly the union of the seen elements. -/
theorem distinctFold_spec {α : Type} [DecidableEq α] (l : List α) :
    ∀ acc : List α, acc.Nodup →
      (l.foldl (fun a p => if p ∈ a then a else a ++ [p]) acc).Nodup ∧
        (l.foldl (fun a p => if p ∈ a then a else a ++ [p]) acc).toFinset =
          acc.toFinset ∪ l.toFinset := by
  induction l with
  | nil =>
    intro acc h
    exact ⟨h, by simp⟩
  | cons x xs ih =>
    intro acc h
    simp only [List.foldl_cons]
    by_cases hx : x ∈ acc
    · rw [if_pos hx]
      rcases ih acc h with ⟨hn, hf⟩
      refine ⟨hn, ?_⟩
      rw [hf]
      ext a
      simp only [Finset.mem_union, List.mem_toFinset, List.toFinset_cons,
        Finset.mem_insert]
      constructor
      · rintro (ha | ha)
        · exact Or.inl ha
        · exact Or.inr (Or.inr ha)
      · rintro (ha | rfl | ha)
        · exact Or.inl ha
        · exact Or.inl hx
        · exact Or.inr ha
    · rw [if_neg hx]
      have h' : (acc ++ [x]).Nodup := by
        simp [List.nodup_append, h, hx]
      rcases ih (acc ++ [x]) h' with ⟨hn, hf⟩
      refine ⟨hn, ?_⟩
      rw [hf]
      ext a
      simp only [Finset.mem_union, List.mem_toFinset, List.toFinset_cons,
        Finset.mem_insert, List.toFinset_append, List.mem_append,
        List.mem_singleton]
      tauto

/-- The number of first occurrences equals the number of distinct
elements. -/
theorem length_distinctInOrder {α : Type} [DecidableEq α] (l : List α) :
    (distinctInOrder l).length = l.dedup.length := by
  have h := distinctFold_spec l [] (by simp)
  unfold distinctInOrder
  rw [← List.toFinset_card_of_nodup h.1, h.2]
  simp [List.card_toFinset]

/-- Counterexample to C8 as stated: with one connection whose geolocation
lookup failed (no cache entry), the summary reports 0 unique IP addresses
although the connection set has 1 distinct remote IP — the reported count
is not independent of lookup success. -/
theorem summary_unique_ip_counterexample :
    ¬ ((tables_summary
          [⟨"TCP", "10.0.0.5", 51000, "93.184.216.34", 443, "ESTABLISHED"⟩]
          []).2.1 =
        (distinctInOrder
          ([⟨"TCP", "10.0.0.5", 51000, "93.184.216.34", 443, "ESTABLISHED"⟩].map
            (fun c : ConnectionRecord => c.remote_ip))).length) := by decide

/-- C8 (amended): the summary block reports the total number of
connections; it reports `len(self.ip_locations)` — the number of IPs whose
geolocation succeeded — as the unique-IP figure, which equals the number of
distinct remote IPs exactly under the assumption that the cache keys are
the distinct remote IPs (every unique remote IP resolved successfully);
and it reports the number of distinct remote ports. -/
theorem summary_counts (conns : List ConnectionRecord)
    (cache : List (String × LocationInfo))
    (hnodup : (cache.map Prod.fst).Nodup)
    (hkeys : (cache.map Prod.fst).toFinset =
      (conns.map (fun c => c.remote_ip)).toFinset) :
    (tables_summary conns cache).1 = conns.length ∧
    (tables_summary conns cache).2.1 =
      (conns.map (fun c => c.remote_ip)).dedup.length ∧
    (tables_summary conns cache).2.2 =
      (conns.map (fun c => c.remote_port)).dedup.length := by
  refine ⟨rfl, ?_, ?_⟩
  · show cache.length = _
    have hlen : cache.length = (cache.map Prod.fst).length := by simp
    rw [hlen, ← List.toFinset_card_of_nodup hnodup, hkeys]
    exact List.card_toFinset _
  · show (distinctInOrder _).length = _
    exact length_distinctInOrder _

/-- Witness for C8 (amended) with one connection and a cache holding
exactly its remote IP: the unique-IP figure is the distinct-IP count. -/
theorem summary_counts_witness :
    (tables_summary
        [⟨"TCP", "10.0.0.5", 51000, "93.184.216.34", 443, "ESTABLISHED"⟩]
        [("93.184.216.34", ⟨"93.184.216.34", "A", "B", "C", 0, 0, "D", "E"⟩)]).2.1 =
      ([(⟨"TCP", "10.0.0.5", 51000, "93.184.216.34", 443, "ESTABLISHED"⟩ :
          ConnectionRecord)].map (fun c => c.remote_ip)).dedup.length :=
  (summary_counts
    [⟨"TCP", "10.0.0.5", 51000, "93.184.216.34", 443, "ESTABLISHED"⟩]
    [("93.184.216.34", ⟨"93.184.216.34", "A", "B", "C", 0, 0, "D", "E"⟩)]
    (by decide) rfl).2.1

/-! ## Claim C9: the map emitter and its fallback -/

/-- Counterexample to C9 as stated: when folium is not installed,
`generate_map` returns without writing any file; and in the empty-cache
branch a raising save also leaves no file — that branch has no fallback
write. -/
theorem map_output_counterexample :
    generate_map ⟨false, SaveOutcome.ok, true⟩ [] = MapOutput.absent ∧
    generate_map ⟨true, SaveOutcome.raisesErr, true⟩ [] = MapOutput.absent :=
  ⟨rfl, rfl⟩

/-- C9 (amended): provided folium is available and the fallback write does
not itself raise, `generate_map` with a nonempty location cache always
leaves a file at the output path (the folium HTML or a fallback page);
whenever the save succeeds — including with zero locations or zero valid
coordinates — the (possibly marker-less) folium HTML is left at the path;
and with folium unavailable no file is written at all. -/
theorem map_output_fallback (env : MapEnv)
    (cache : List (String × LocationInfo))
    (hw : env.fallbackWriteOk = true) :
    (env.foliumAvailable = true → cache ≠ [] →
      generate_map env cache ≠ MapOutput.absent) ∧
    (env.foliumAvailable = true → env.save = SaveOutcome.ok →
      generate_map env cache = MapOutput.foliumHtml (map_markers cache)) ∧
    (env.foliumAvailable = false →
      generate_map env cache = MapOutput.absent) := by
  rcases env with ⟨fa, sv, fw⟩
  cases fa
  · exact ⟨fun h _ => by simp at h, fun h _ => by simp at h, fun _ => rfl⟩
  · simp only [MapEnv.fallbackWriteOk] at hw
    subst hw
    refine ⟨fun _ hne => ?_, fun _ hsv => ?_, fun h => by cases h⟩
    · have hne2 : cache.isEmpty = false := by
        cases cache with
        | nil => exact absurd rfl hne
        | cons a t => rfl
      cases sv <;> simp [generate_map, hne2]
    · subst hsv
      cases cache with
      | nil => simp [generate_map, map_markers]
      | cons a t => simp [generate_map]

/-- Witness for C9 (amended): with folium present, a raising save, a
working fallback write and one cached location, a file is still left at
the path. -/
theorem map_output_fallback_witness :
    generate_map ⟨true, SaveOutcome.raisesErr, true⟩
      [("1.2.3.4", ⟨"1.2.3.4", "A", "B", "C", 0, 0, "D", "E"⟩)] ≠
      MapOutput.absent :=
  (map_output_fallback ⟨true, SaveOutcome.raisesErr, true⟩
    [("1.2.3.4", ⟨"1.2.3.4", "A", "B", "C", 0, 0, "D", "E"⟩)] rfl).1 rfl
    (by simp)

/-! ## Claim C10: octet values are never range-checked -/

/-- Equation for the `\d+` token: it consumes a nonempty digit run up to a
non-digit boundary character. -/
theorem takeDigits1_eq (p : List Char) (c : Char) (r : List Char)
    (hp : DigitPart p) (hc : c.isDigit = false) :
    takeDigits1 (p ++ c :: r) = some (p, c :: r) := by
  unfold takeDigits1
  rw [takeWhile_append_not Char.isDigit p c r hp.2 hc,
    dropWhile_append_not Char.isDigit p c r hp.2 hc, if_neg hp.1]

/-- Equation for the `\s+` token: it consumes a nonempty whitespace run up
to a non-space boundary character. -/
theorem takeSpaces1_eq (p : List Char) (c : Char) (r : List Char)
    (hp : SpacePart p) (hc : isSpaceChar c = false) :
    takeSpaces1 (p ++ c :: r) = some (c :: r) := by
  unfold takeSpaces1
  rw [takeWhile_append_not isSpaceChar p c r hp.2 hc,
    dropWhile_append_not isSpaceChar p c r hp.2 hc, if_neg hp.1]

/-- Variant of `takeSpaces1_eq` with the leading space made explicit, in
the cons-normal form produced by `simp` with `cons_append`. -/
theorem takeSpaces1_split (a : Char) (p : List Char) (c : Char) (r : List Char)
    (hp : SpacePart (a :: p)) (hc : isSpaceChar c = false) :
    takeSpaces1 (a :: (p ++ c :: r)) = some (c :: r) := by
  have h := takeSpaces1_eq (a :: p) c r hp hc
  simpa using h

/-- Equation for the state group when it ends the line. -/
theorem takeWord1_all (p : List Char) (hp : WordPart p) :
    takeWord1 p = some (p, []) := by
  unfold takeWord1
  rw [takeWhile_all isWordChar p hp.2, dropWhile_all isWordChar p hp.2,
    if_neg hp.1]

/-- Equation for a required literal character. -/
theorem expectChar_cons (c : Char) (r : List Char) :
    expectChar c (c :: r) = some r := by
  unfold expectChar
  simp

/-- Equation for the quad group: it consumes exactly the four digit runs
and the three dots, stopping at a non-digit boundary character. -/
theorem matchQuad_eq (p1 p2 p3 p4 : List Char) (c : Char) (r : List Char)
    (h1 : DigitPart p1) (h2 : DigitPart p2) (h3 : DigitPart p3)
    (h4 : DigitPart p4) (hc : c.isDigit = false) :
    matchQuad (ipChars p1 p2 p3 p4 ++ c :: r) =
      some (ipChars p1 p2 p3 p4, c :: r) := by
  have e : ipChars p1 p2 p3 p4 ++ c :: r =
      p1 ++ '.' :: (p2 ++ '.' :: (p3 ++ '.' :: (p4 ++ c :: r))) := by
    simp [ipChars]
  rw [e]
  unfold matchQuad
  rw [takeDigits1_eq p1 '.' _ h1 (by decide)]
  simp only []
  rw [expectChar_cons]
  simp only []
  rw [takeDigits1_eq p2 '.' _ h2 (by decide)]
  simp only []
  rw [expectChar_cons]
  simp only []
  rw [takeDigits1_eq p3 '.' _ h3 (by decide)]
  simp only []
  rw [expectChar_cons]
  simp only []
  rw [takeDigits1_eq p4 c _ h4 hc]
  simp only [ipChars]

/-- Variant of `matchQuad_eq` with the leading digit made explicit, in the
cons-normal form produced by `simp` with `cons_append`. -/
theorem matchQuad_split (a : Char) (p1t l2 l3 l4 : List Char) (c : Char)
    (r : List Char) (h1 : DigitPart (a :: p1t)) (h2 : DigitPart l2)
    (h3 : DigitPart l3) (h4 : DigitPart l4) (hc : c.isDigit = false) :
    matchQuad (a :: (p1t ++ '.' :: (l2 ++ '.' :: (l3 ++ '.' :: (l4 ++ c :: r))))) =
      some (a :: (p1t ++ '.' :: (l2 ++ '.' :: (l3 ++ '.' :: l4))), c :: r) := by
  have h := matchQuad_eq (a :: p1t) l2 l3 l4 c r h1 h2 h3 h4 hc
  simpa [ipChars] using h

/-- Rearrangement of a quad group followed by a suffix into cons-normal
form. -/
theorem quad_flatten (a : Char) (q1t q2 q3 q4 R : List Char) :
    ipChars (a :: q1t) q2 q3 q4 ++ R =
      a :: (q1t ++ '.' :: (q2 ++ '.' :: (q3 ++ '.' :: (q4 ++ R)))) := by
  simp [ipChars]

/-- The alternation `(TCP|UDP)` consumes exactly the protocol token. -/
theorem matchProto_eq (proto R : List Char)
    (hp : proto = ['T', 'C', 'P'] ∨ proto = ['U', 'D', 'P']) :
    matchProto (proto ++ R) = some (proto, R) := by
  rcases hp with rfl | rfl <;> rfl

/-- Leading whitespace is skipped up to the protocol token. -/
theorem dropWhile_ws_proto (ws proto R : List Char)
    (hws : ∀ c ∈ ws, isSpaceChar c = true)
    (hp : proto = ['T', 'C', 'P'] ∨ proto = ['U', 'D', 'P']) :
    (ws ++ (proto ++ R)).dropWhile isSpaceChar = proto ++ R := by
  rcases hp with rfl | rfl
  · exact dropWhile_append_not isSpaceChar ws 'T' _ hws (by decide)
  · exact dropWhile_append_not isSpaceChar ws 'U' _ hws (by decide)

/-- The connection pattern matches every line of the canonical shape —
leading whitespace, TCP or UDP, whitespace, dotted-quad:port, whitespace,
dotted-quad:port, whitespace, state token — for arbitrary digit strings in
the octet and port positions, whatever their numeric magnitude, and
captures the six groups. -/
theorem matchConn_canonical
    (ws sp1 sp2 sp3 proto l1 l2 l3 l4 lp r1 r2 r3 r4 rp st : List Char)
    (hws : ∀ c ∈ ws, isSpaceChar c = true)
    (hsp1 : SpacePart sp1) (hsp2 : SpacePart sp2) (hsp3 : SpacePart sp3)
    (hproto : proto = ['T', 'C', 'P'] ∨ proto = ['U', 'D', 'P'])
    (h1 : DigitPart l1) (h2 : DigitPart l2) (h3 : DigitPart l3)
    (h4 : DigitPart l4) (hlp : DigitPart lp)
    (g1 : DigitPart r1) (g2 : DigitPart r2) (g3 : DigitPart r3)
    (g4 : DigitPart r4) (hrp : DigitPart rp)
    (hst : WordPart st) :
    matchConn (connLine ws proto sp1 l1 l2 l3 l4 lp sp2 r1 r2 r3 r4 rp sp3 st) =
      some ⟨proto, ipChars l1 l2 l3 l4, lp, ipChars r1 r2 r3 r4, rp, st⟩ := by
  obtain ⟨a1, l1t, rfl⟩ := List.exists_cons_of_ne_nil h1.1
  obtain ⟨s2, sp2t, rfl⟩ := List.exists_cons_of_ne_nil hsp2.1
  obtain ⟨b1, r1t, rfl⟩ := List.exists_cons_of_ne_nil g1.1
  obtain ⟨s3, sp3t, rfl⟩ := List.exists_cons_of_ne_nil hsp3.1
  obtain ⟨w1, stt, rfl⟩ := List.exists_cons_of_ne_nil hst.1
  have ha1 : Char.isDigit a1 = true := h1.2 a1 (List.mem_cons_self _ _)
  have hs2 : isSpaceChar s2 = true := hsp2.2 s2 (List.mem_cons_self _ _)
  have hb1 : Char.isDigit b1 = true := g1.2 b1 (List.mem_cons_self _ _)
  have hs3 : isSpaceChar s3 = true := hsp3.2 s3 (List.mem_cons_self _ _)
  have hw1 : isWordChar w1 = true := hst.2 w1 (List.mem_cons_self _ _)
  unfold connLine matchConn
  simp only [List.append_assoc]
  simp only [quad_flatten]
  simp only [List.cons_append]
  rw [dropWhile_ws_proto ws proto _ hws hproto]
  rw [matchProto_eq proto _ hproto]
  simp only []
  rw [takeSpaces1_eq sp1 a1 _ hsp1 (not_space_of_digit a1 ha1)]
  simp only []
  rw [matchQuad_split a1 l1t l2 l3 l4 ':' _ h1 h2 h3 h4 (by decide)]
  simp only []
  rw [expectChar_cons]
  simp only []
  rw [takeDigits1_eq lp s2 _ hlp (not_digit_of_space s2 hs2)]
  simp only []
  rw [takeSpaces1_split s2 sp2t b1 _ hsp2 (not_space_of_digit b1 hb1)]
  simp only []
  rw [matchQuad_split b1 r1t r2 r3 r4 ':' _ g1 g2 g3 g4 (by decide)]
  simp only []
  rw [expectChar_cons]
  simp only []
  rw [takeDigits1_eq rp s3 _ hrp (not_digit_of_space s3 hs3)]
  simp only []
  rw [takeSpaces1_split s3 sp3t w1 _ hsp3 (not_space_of_word w1 hw1)]
  simp only []
  rw [takeWord1_all (w1 :: stt) hst]
  simp [ipChars]

/-- A dotted quad whose first octet value exceeds 255 is none of the four
literal addresses skipped by the parser. -/
theorem quad_not_literal (p1 p2 p3 p4 : List Char)
    (h1 : DigitPart p1) (h2 : DigitPart p2) (h3 : DigitPart p3)
    (h4 : DigitPart p4) (hv : 255 < decimalValue p1) :
    String.mk (ipChars p1 p2 p3 p4) ∉ skipLiterals := by
  have hsplit := splitDot_ipChars p1 p2 p3 p4
    (fun c hc => digit_ne_dot c (h1.2 c hc))
    (fun c hc => digit_ne_dot c (h2.2 c hc))
    (fun c hc => digit_ne_dot c (h3.2 c hc))
    (fun c hc => digit_ne_dot c (h4.2 c hc))
  intro hm
  simp only [skipLiterals, List.mem_cons, List.not_mem_nil, or_false] at hm
  rcases hm with h | h | h | h
  · have hd : ipChars p1 p2 p3 p4 = ("0.0.0.0" : String).data :=
      congrArg String.data h
    rw [hd] at hsplit
    have he : splitDot ("0.0.0.0" : String).data =
        [['0'], ['0'], ['0'], ['0']] := by decide
    rw [he] at hsplit
    injection hsplit with e1 _
    rw [← e1] at hv
    exact absurd hv (by decide)
  · have hd : ipChars p1 p2 p3 p4 = ("127.0.0.1" : String).data :=
      congrArg String.data h
    rw [hd] at hsplit
    have he : splitDot ("127.0.0.1" : String).data =
        [['1', '2', '7'], ['0'], ['0'], ['1']] := by decide
    rw [he] at hsplit
    injection hsplit with e1 _
    rw [← e1] at hv
    exact absurd hv (by decide)
  · have hd : ipChars p1 p2 p3 p4 = ("::" : String).data :=
      congrArg String.data h
    rw [hd] at hsplit
    have he : splitDot ("::" : String).data = [[':', ':']] := by decide
    rw [he] at hsplit
    injection hsplit with _ e2
    simp at e2
  · have hd : ipChars p1 p2 p3 p4 = ("::1" : String).data :=
      congrArg String.data h
    rw [hd] at hsplit
    have he : splitDot ("::1" : String).data = [[':', ':', '1']] := by decide
    rw [he] at hsplit
    injection hsplit with _ e2
    simp at e2

/-- C10 (amended): the connection pattern matches every canonically shaped
line whatever the numeric magnitude of the octet digit strings — octets
are never range-checked against 255 — and whenever the remote address's
FIRST octet value exceeds 255 the private-IP check returns false and the
record is kept in the connection set, eligible for geolocation.  (When a
non-first octet exceeds 255 while the first octet is a private prefix,
e.g. 10.999.1.1, the check still returns true and the record is dropped —
see the counterexample.) -/
theorem octet_range_unchecked
    (ws sp1 sp2 sp3 proto l1 l2 l3 l4 lp r1 r2 r3 r4 rp st : List Char)
    (hws : ∀ c ∈ ws, isSpaceChar c = true)
    (hsp1 : SpacePart sp1) (hsp2 : SpacePart sp2) (hsp3 : SpacePart sp3)
    (hproto : proto = ['T', 'C', 'P'] ∨ proto = ['U', 'D', 'P'])
    (h1 : DigitPart l1) (h2 : DigitPart l2) (h3 : DigitPart l3)
    (h4 : DigitPart l4) (hlp : DigitPart lp)
    (g1 : DigitPart r1) (g2 : DigitPart r2) (g3 : DigitPart r3)
    (g4 : DigitPart r4) (hrp : DigitPart rp)
    (hst : WordPart st) :
    matchConn (connLine ws proto sp1 l1 l2 l3 l4 lp sp2 r1 r2 r3 r4 rp sp3 st) =
      some ⟨proto, ipChars l1 l2 l3 l4, lp, ipChars r1 r2 r3 r4, rp, st⟩ ∧
    (255 < decimalValue r1 →
      is_private_ip (String.mk (ipChars r1 r2 r3 r4)) = false ∧
      parse_netstat_output
          [String.mk (connLine ws proto sp1 l1 l2 l3 l4 lp sp2 r1 r2 r3 r4 rp sp3 st)] =
        [⟨String.mk proto, String.mk (ipChars l1 l2 l3 l4), decimalValue lp,
          String.mk (ipChars r1 r2 r3 r4), decimalValue rp, String.mk st⟩]) := by
  have hm := matchConn_canonical ws sp1 sp2 sp3 proto l1 l2 l3 l4 lp r1 r2 r3 r4 rp st
    hws hsp1 hsp2 hsp3 hproto h1 h2 h3 h4 hlp g1 g2 g3 g4 hrp hst
  refine ⟨hm, fun hv => ?_⟩
  have hpriv : is_private_ip (String.mk (ipChars r1 r2 r3 r4)) = false := by
    rw [is_private_ip_quad r1 r2 r3 r4 g1 g2 g3 g4]
    apply decide_eq_false
    intro hpr
    rcases hpr with h | ⟨h, _⟩ | ⟨h, _⟩ | h <;> omega
  refine ⟨hpriv, ?_⟩
  unfold parse_netstat_output
  simp only [List.filterMap_cons, List.filterMap_nil]
  rw [hm]
  simp [quad_not_literal r1 r2 r3 r4 g1 g2 g3 g4 hv, hpriv]

/-- Witness for C10 (amended) on the concrete line
"TCP    1.2.3.4:80    999.1.2.3:443    EST": the pattern matches and the
record with remote 999.1.2.3 (first octet 999 > 255) is kept. -/
theorem octet_range_unchecked_witness :
    matchConn (connLine [] ['T', 'C', 'P'] [' ', ' ', ' ', ' ']
        ['1'] ['2'] ['3'] ['4'] ['8', '0'] [' ', ' ', ' ', ' ']
        ['9', '9', '9'] ['1'] ['2'] ['3'] ['4', '4', '3'] [' ', ' ', ' ', ' ']
        ['E', 'S', 'T']) =
      some ⟨['T', 'C', 'P'], ipChars ['1'] ['2'] ['3'] ['4'], ['8', '0'],
        ipChars ['9', '9', '9'] ['1'] ['2'] ['3'], ['4', '4', '3'],
        ['E', 'S', 'T']⟩ ∧
    is_private_ip (String.mk (ipChars ['9', '9', '9'] ['1'] ['2'] ['3'])) = false ∧
    parse_netstat_output
        [String.mk (connLine [] ['T', 'C', 'P'] [' ', ' ', ' ', ' ']
          ['1'] ['2'] ['3'] ['4'] ['8', '0'] [' ', ' ', ' ', ' ']
          ['9', '9', '9'] ['1'] ['2'] ['3'] ['4', '4', '3'] [' ', ' ', ' ', ' ']
          ['E', 'S', 'T'])] =
      [⟨String.mk ['T', 'C', 'P'], String.mk (ipChars ['1'] ['2'] ['3'] ['4']),
        decimalValue ['8', '0'], String.mk (ipChars ['9', '9', '9'] ['1'] ['2'] ['3']),
        decimalValue ['4', '4', '3'], String.mk ['E', 'S', 'T']⟩] := by
  have h := octet_range_unchecked [] [' ', ' ', ' ', ' '] [' ', ' ', ' ', ' ']
    [' ', ' ', ' ', ' '] ['T', 'C', 'P'] ['1'] ['2'] ['3'] ['4'] ['8', '0']
    ['9', '9', '9'] ['1'] ['2'] ['3'] ['4', '4', '3'] ['E', 'S', 'T']
    (by decide) (by decide) (by decide) (by decide) (Or.inl rfl)
    (by decide) (by decide) (by decide) (by decide) (by decide)
    (by decide) (by decide) (by decide) (by decide) (by decide) (by decide)
  exact ⟨h.1, (h.2 (by decide)).1, (h.2 (by decide)).2⟩

/-- Counterexample to C10 as stated: the line
"TCP    10.0.0.1:80    10.999.1.1:443    ESTABLISHED" has a remote quad of
digit strings containing the octet value 999 > 255 and the pattern matches,
yet the private-IP check returns true (not false, because the first octet
is 10) and the record is dropped from the connection set. -/
theorem octet_range_counterexample :
    (matchConn "TCP    10.0.0.1:80    10.999.1.1:443    ESTABLISHED".data).isSome
      = true ∧
    is_private_ip "10.999.1.1" = true ∧
    parse_netstat_output ["TCP    10.0.0.1:80    10.999.1.1:443    ESTABLISHED"]
      = [] := by
  refine ⟨by decide, by decide, by decide⟩

example : is_private_ip "10.0.0.1" = true := by decide

example : is_private_ip "8.8.8.8" = false := by decide

example : is_private_ip "172.31.0.1" = true := by decide

example : is_private_ip "172.32.0.1" = false := by decide

example : is_private_ip "10.999.1.1" = true := by decide

example :
    parse_netstat_output ["TCP    10.0.0.5:51000    93.184.216.34:443    ESTABLISHED"] =
      [⟨"TCP", "10.0.0.5", 51000, "93.184.216.34", 443, "ESTABLISHED"⟩] := by decide

end NetStatWiz
